import Mathlib

/-!
Shallow embedding of the CosmoCore condition engine and rule manager
(src/cosmo/engine/core.py, src/cosmo/engine/model.py, src/cosmo/engine/builtin.py,
src/cosmo/rules/manager.py).

Python dictionaries are modelled as association lists (`List (Nat x value)`)
keyed by condition `instance_id`; Python sets of ids as duplicate-free
`List Nat` with insertion order preserved.  Asyncio events are modelled by
recording, per condition id, whether an event object was attached
(`eventIds`, `toEventIds`) and how many times `set()` was invoked on it
(`notifyCalls`, `toCalls`).  Timer tasks are modelled by membership of the
condition id in `durTimers` / `tmoTimers`; a timer "elapsing" is an explicit
step that requires the timer to still be registered.  A Python `KeyError`
(dict subscript on a missing key) is modelled by returning the partially
mutated world together with `some EngErr.keyError`.
-/

namespace Cosmo

/-- `ConditionState` enum from core.py (TIMEOUT = -1, OFF = 0, PENDING = 1, ON = 2). -/
inductive ConditionState where
  | TIMEOUT
  | OFF
  | PENDING
  | ON
deriving DecidableEq, Repr

/-- `ConditionState.is_on`: true exactly for `ON` (value == 2). -/
def ConditionState.isOn : ConditionState → Bool
  | .ON => true
  | _ => false

/-- Operator of a `BooleanCondition` (builtin.py): "and", "or", "not". -/
inductive BoolOp where
  | andOp
  | orOp
  | notOp
deriving DecidableEq, Repr

/-- The concrete condition classes used by the engine: an external leaf whose
`evaluate` reads an externally mutated boolean, the constant conditions, and
`BooleanCondition` whose `evaluate` reads its cached child states. -/
inductive CondKind where
  | leaf
  | alwaysTrue
  | alwaysFalse
  | boolc (op : BoolOp)
deriving DecidableEq, Repr

/-- Immutable structure of a condition object: kind, subcondition ids (in
constructor order) and the `duration` / `timeout` attributes (seconds as Nat). -/
structure CondObj where
  kind : CondKind
  subs : List Nat
  duration : Option Nat
  timeout : Option Nat
deriving DecidableEq, Repr

/-! ### Association-list dictionary helpers (Python `dict` semantics) -/

/-- Dictionary lookup `d.get(k)` / `d[k]`. -/
def alookup {α : Type} : List (Nat × α) → Nat → Option α
  | [], _ => none
  | (k', v) :: rest, k => if k' = k then some v else alookup rest k

/-- Dictionary store `d[k] = v`: replaces in place or appends. -/
def aset {α : Type} : List (Nat × α) → Nat → α → List (Nat × α)
  | [], k, v => [(k, v)]
  | (k', v') :: rest, k, v =>
      if k' = k then (k, v) :: rest else (k', v') :: aset rest k v

/-- Dictionary deletion `del d[k]` guarded by `if k in d` (total). -/
def aerase {α : Type} (l : List (Nat × α)) (k : Nat) : List (Nat × α) :=
  l.filter (fun p => p.1 != k)

/-- Set insertion `s.add(k)` preserving first-insertion order. -/
def insertId (l : List Nat) (k : Nat) : List Nat :=
  if l.contains k then l else l ++ [k]

/-- Set / dict-key removal for id sets. -/
def eraseId (l : List Nat) (k : Nat) : List Nat :=
  l.filter (fun x => x != k)

/-- Bump a per-id counter (used for event `set()` and `removed()` call counts). -/
def bumpCount (l : List (Nat × Nat)) (k : Nat) : List (Nat × Nat) :=
  aset l k ((alookup l k).getD 0 + 1)

/-! ### The world: engine maps plus the mutable state of condition objects -/

/-- Engine state (`ConditionEngine.__init__`) together with the mutable parts of
the condition objects themselves (leaf booleans, `BooleanCondition` caches) and
the observable notifier events. -/
structure World where
  /-- Current boolean of each leaf condition (mutated externally, read by `evaluate`). -/
  leafVals : List (Nat × Bool)
  /-- `BooleanCondition._conditions` caches: boolc id -> (child id -> cached bool). -/
  caches : List (Nat × List (Nat × Bool))
  /-- `self._conditions`: id -> (notifier's condition object, state). -/
  conditions : List (Nat × (CondObj × ConditionState))
  /-- `self._dependencies`: id -> set of parent ids. -/
  deps : List (Nat × List Nat)
  /-- `self._duration_timers`: ids with a live duration timer task. -/
  durTimers : List Nat
  /-- `self._timeout_timers`: ids with a live timeout timer task. -/
  tmoTimers : List Nat
  /-- Ids whose notifier was registered with a `condition_event`. -/
  eventIds : List Nat
  /-- Ids whose notifier was registered with a `timeout_event`. -/
  toEventIds : List Nat
  /-- Number of `event.set()` calls per id (notify). -/
  notifyCalls : List (Nat × Nat)
  /-- Number of `timeout_event.set()` calls per id (notify_timeout). -/
  toCalls : List (Nat × Nat)
deriving DecidableEq, Repr

/-- The empty engine over fresh condition objects. -/
def World.empty : World :=
  ⟨[], [], [], [], [], [], [], [], [], []⟩

/-- Python exceptions observable in the modelled code: `KeyError` (dict
subscript on a missing key), `ValueError` (failed validation),
`AttributeError` (calling a method no class defines), and BFS fuel
exhaustion, which stands in for the unbounded `while` loop of the source. -/
inductive EngErr where
  | keyError
  | valueError
  | attributeError
  | fuel
deriving DecidableEq, Repr

/-! ### Condition object behaviour (model.py / builtin.py) -/

/-- `BooleanCondition.evaluate`: reduce the cached child booleans.
The `not` constructor guarantees exactly one cache entry. -/
def evalCached (op : BoolOp) (cache : List (Nat × Bool)) : Bool :=
  match op with
  | .andOp => cache.all (fun p => p.2)
  | .orOp => cache.any (fun p => p.2)
  | .notOp => !((cache.map (fun p => p.2)).headD false)

/-- `condition.evaluate()` for a registered condition object. -/
def evaluateObj (w : World) (cid : Nat) (obj : CondObj) : Bool :=
  match obj.kind with
  | .leaf => (alookup w.leafVals cid).getD false
  | .alwaysTrue => true
  | .alwaysFalse => false
  | .boolc op => evalCached op ((alookup w.caches cid).getD [])

/-- Cache update used by `BooleanCondition.on_condition_event` /
`initialize`: replace the stored boolean of an existing child entry
(the Python source only touches keys seeded at construction). -/
def updCache (cache : List (Nat × Bool)) (k : Nat) (b : Bool) : List (Nat × Bool) :=
  cache.map (fun p => if p.1 = k then (p.1, b) else p)

/-- `parent.on_condition_event(child, state)`: a `BooleanCondition` parent
stores the new boolean under the child's id; other kinds are no-ops
(default of `EngineCondition`). -/
def onCondEvent (w : World) (pid childId : Nat) (b : Bool) : World :=
  match alookup w.conditions pid with
  | some (obj, _) =>
      match obj.kind with
      | .boolc _ =>
          match alookup w.caches pid with
          | some cache => { w with caches := aset w.caches pid (updCache cache childId b) }
          | none => w
      | _ => w
  | none => w

/-! ### report_condition_event (core.py lines 129-199) -/

/-- Loop over `self._dependencies.get(id, [])` (core.py lines 172-176): for each
parent still present in `conditions`, call `on_condition_event(child, b)` and
enqueue it.  Returns the world and the appended work-queue entries. -/
def informParents (w : World) (childId : Nat) (b : Bool) : World × List Nat :=
  ((alookup w.deps childId).getD []).foldl
    (fun (acc : World × List Nat) pid =>
      match alookup acc.1.conditions pid with
      | some _ => (onCondEvent acc.1 pid childId b, acc.2 ++ [pid])
      | none => acc)
    (w, [])

/-- Body of the BFS loop for one dequeued node (core.py lines 143-176): look up
the current state (`KeyError` if the entry vanished), evaluate, take one of the
two `OFF`-and-true branches (storing the new state and, for the duration
branch, arming the duration timer), then inform parents with
`new_state.is_on()`. -/
def processNode (w : World) (cid : Nat) : (World × List Nat) × Option EngErr :=
  match alookup w.conditions cid with
  | none => ((w, []), some .keyError)
  | some (obj, currentState) =>
      let st := evaluateObj w cid obj
      if currentState = ConditionState.OFF ∧ st = true ∧ obj.duration.isSome then
        let w1 := { w with conditions := aset w.conditions cid (obj, ConditionState.PENDING) }
        let w2 := { w1 with durTimers := insertId w1.durTimers cid }
        (informParents w2 cid ConditionState.PENDING.isOn, none)
      else if currentState = ConditionState.OFF ∧ st = true then
        let w1 := { w with conditions := aset w.conditions cid (obj, ConditionState.ON) }
        (informParents w1 cid ConditionState.ON.isOn, none)
      else
        (informParents w cid ConditionState.OFF.isOn, none)

/-- The BFS `while len(work) > 0` loop, fuelled (the Python loop is unbounded;
on cyclic dependency graphs it does not terminate, which the `fuel` error
stands in for).  Records every dequeued id in `touched`. -/
def bfs (fuel : Nat) (w : World) (work touched : List Nat) :
    World × List Nat × Option EngErr :=
  match fuel, work with
  | _, [] => (w, touched, none)
  | 0, _ :: _ => (w, touched, some .fuel)
  | fuel' + 1, cid :: rest =>
      let touched' := insertId touched cid
      match processNode w cid with
      | ((w', newWork), none) => bfs fuel' w' (rest ++ newWork) touched'
      | ((w', _), some e) => (w', touched', some e)

/-- The `previous_state` snapshot dict comprehension (core.py lines 132-134):
`none` models the `KeyError` raised on the first unregistered id. -/
def snapshot (w : World) : List Nat → Option (List (Nat × ConditionState))
  | [] => some []
  | cid :: rest => do
      let (_, st) ← alookup w.conditions cid
      let l ← snapshot w rest
      pure (aset l cid st)

/-- `notifier.notify()`: sets the fired event when one was attached. -/
def notify (w : World) (cid : Nat) : World :=
  if w.eventIds.contains cid then
    { w with notifyCalls := bumpCount w.notifyCalls cid }
  else w

/-- `notifier.notify_timeout()`: sets the timeout event when one was attached. -/
def notifyTimeout (w : World) (cid : Nat) : World :=
  if w.toEventIds.contains cid then
    { w with toCalls := bumpCount w.toCalls cid }
  else w

/-- Body of the post-propagation loop for a single touched id (core.py lines
179-199): re-read the current state, read the snapshot (`previous_state[id]`
raises `KeyError` when the id was never snapshotted), then handle the
`OFF -> ON` and `PENDING -> OFF` deltas. -/
def finishNode (w : World) (prev : List (Nat × ConditionState)) (cid : Nat) :
    World × Option EngErr :=
  match alookup w.conditions cid with
  | none => (w, some .keyError)
  | some (_, curr) =>
      match alookup prev cid with
      | none => (w, some .keyError)
      | some prevSt =>
          let w1 :=
            if prevSt = ConditionState.OFF ∧ curr = ConditionState.ON then
              notify { w with tmoTimers := eraseId w.tmoTimers cid } cid
            else w
          let w2 :=
            if prevSt = ConditionState.PENDING ∧ curr = ConditionState.OFF then
              { w1 with durTimers := eraseId w1.durTimers cid }
            else w1
          (w2, none)

/-- The post-propagation loop (core.py lines 178-199).  The list comprehension
`[self._conditions[cid][0] for cid in touched_conditions]` materialises every
notifier first, so a missing touched id raises before any delta is handled. -/
def finishLoop (w : World) (prev : List (Nat × ConditionState)) (touched : List Nat) :
    World × Option EngErr :=
  if touched.all (fun cid => (alookup w.conditions cid).isSome) then
    touched.foldl
      (fun acc cid =>
        match acc.2 with
        | some _ => acc
        | none => finishNode acc.1 prev cid)
      (w, none)
  else (w, some .keyError)

/-- `ConditionEngine.report_condition_event(conditions)` (core.py lines
129-199): snapshot, notifier list, BFS propagation, then the delta loop. -/
def reportConditionEvent (fuel : Nat) (w : World) (ids : List Nat) :
    World × Option EngErr :=
  match snapshot w ids with
  | none => (w, some .keyError)
  | some prev =>
      if ids.all (fun cid => (alookup w.conditions cid).isSome) then
        match bfs fuel w ids [] with
        | (w', _, some e) => (w', some e)
        | (w', touched, none) => finishLoop w' prev touched
      else (w, some .keyError)

/-! ### add_condition / remove_condition (core.py lines 55-127) -/

/-- A condition object tree as handed to `add_condition`: the instance id, the
kind, the `duration` and `timeout` attributes, and the subcondition objects. -/
inductive CTree where
  | node (cid : Nat) (kind : CondKind) (duration : Option Nat) (timeout : Option Nat)
      (subs : List CTree)

/-- `condition.instance_id`. -/
def CTree.cid : CTree → Nat
  | .node c _ _ _ _ => c

/-- Flatten a tree node to the immutable object stored in the engine map. -/
def CTree.toObj : CTree → CondObj
  | .node _ kind dur tmo subs => ⟨kind, subs.map CTree.cid, dur, tmo⟩

mutual
/-- All instance ids of a tree, root first then subconditions in order
(the traversal order of `remove_condition`). -/
def CTree.allIds : CTree → List Nat
  | .node c _ _ _ subs => c :: CTree.allIdsList subs

def CTree.allIdsList : List CTree → List Nat
  | [] => []
  | t :: ts => CTree.allIds t ++ CTree.allIdsList ts
end

/-- `condition.initialize(states)` (model.py default no-op; builtin.py
`BooleanCondition.initialize` overwrites the cached boolean of each child). -/
def initializeCond (w : World) (cid : Nat) (kind : CondKind)
    (states : List (Nat × Bool)) : World :=
  match kind with
  | .boolc _ =>
      let cache := (alookup w.caches cid).getD []
      { w with caches := aset w.caches cid (states.foldl (fun c p => updCache c p.1 p.2) cache) }
  | _ => w

/-- The children's ON-states handed to `condition.initialize` (core.py lines
69-73): `(c, self._conditions[c.instance_id][1].is_on())` per subcondition. -/
def childStates (w : World) (subIds : List Nat) : List (Nat × Bool) :=
  subIds.map (fun sid =>
    (sid, (match alookup w.conditions sid with
           | some (_, st) => st.isOn
           | none => false)))

/-- The non-recursive tail of `add_condition` (core.py lines 68-104), run after
the subconditions were added: initialize from the children's ON-states,
evaluate, arm the timeout timer when the condition could still reach ON
(evaluated false, or true with a duration requirement), then record the
initial state, arming the duration timer in the PENDING case, and attach the
notifier events.  Nothing here fires an event. -/
def addRoot (w : World) (cid : Nat) (kind : CondKind) (dur tmo : Option Nat)
    (subIds : List Nat) (hasEv hasTo : Bool) : World :=
  let w2 := initializeCond w cid kind (childStates w subIds)
  let obj : CondObj := ⟨kind, subIds, dur, tmo⟩
  let st := evaluateObj w2 cid obj
  let w3 :=
    if (st = false ∨ (st = true ∧ dur.isSome)) ∧ tmo.isSome then
      { w2 with tmoTimers := insertId w2.tmoTimers cid }
    else w2
  let w4 :=
    if st = true then
      if dur.isSome then
        { w3 with conditions := aset w3.conditions cid (obj, ConditionState.PENDING)
                , durTimers := insertId w3.durTimers cid }
      else
        { w3 with conditions := aset w3.conditions cid (obj, ConditionState.ON) }
    else
      { w3 with conditions := aset w3.conditions cid (obj, ConditionState.OFF) }
  let w5 := if hasEv then { w4 with eventIds := insertId w4.eventIds cid } else w4
  if hasTo then { w5 with toEventIds := insertId w5.toEventIds cid } else w5

mutual
/-- `ConditionEngine.add_condition(condition, condition_event, timeout_event)`
(core.py lines 55-104): recursively add subconditions and reverse edges, then
run the per-node tail. -/
def addCondition (w : World) (t : CTree) (hasEv hasTo : Bool) : World :=
  match t with
  | .node cid kind dur tmo subs =>
      addRoot (addSubs w cid subs) cid kind dur tmo (subs.map CTree.cid) hasEv hasTo

/-- The subcondition loop of `add_condition` (core.py lines 61-66): add the
subcondition with no events, then record the reverse dependency edge. -/
def addSubs (w : World) (pid : Nat) : List CTree → World
  | [] => w
  | s :: rest =>
      let w1 := addCondition w s false false
      let w2 := { w1 with
        deps := aset w1.deps s.cid (insertId ((alookup w1.deps s.cid).getD []) pid) }
      addSubs w2 pid rest
end

/-- `ConditionEngine.remove_condition(condition)` (core.py lines 106-127).
The guarded deletions of lines 107-120 succeed (entries and timers of this
node are removed), but line 123 then calls `condition.removed()` — and no
condition class in this repository defines `removed` (neither
`EngineCondition` in engine/model.py nor any of its subclasses), so the
attribute lookup raises `AttributeError` on every call and the recursive
removal of the subconditions (lines 126-127) is never reached. -/
def removeCondition (w : World) : CTree → World × Option EngErr
  | .node cid _ _ _ _ =>
      ({ w with conditions := aerase w.conditions cid
              , deps := aerase w.deps cid
              , tmoTimers := eraseId w.tmoTimers cid
              , durTimers := eraseId w.durTimers cid },
       some EngErr.attributeError)

/-! ### Timer callbacks (core.py lines 201-255) -/

/-- `_on_condition_timeout` inner callback (core.py lines 206-220): the
unguarded `del self._timeout_timers[id]` raises `KeyError` when the timer is
no longer registered (modelled as requiring membership); otherwise cancel any
duration timer, store `TIMEOUT`, and set the timeout event. -/
def timeoutElapse (w : World) (cid : Nat) : World × Option EngErr :=
  if w.tmoTimers.contains cid then
    let w1 := { w with tmoTimers := eraseId w.tmoTimers cid
                     , durTimers := eraseId w.durTimers cid }
    let w2 :=
      match alookup w1.conditions cid with
      | some (obj, _) =>
          { w1 with conditions := aset w1.conditions cid (obj, ConditionState.TIMEOUT) }
      | none => w1
    (notifyTimeout w2 cid, none)
  else (w, some .keyError)

/-- `_on_duration_timer` inner callback (core.py lines 229-253): the unguarded
`del self._duration_timers[id]` raises when the timer is gone; otherwise cancel
any timeout timer, store `ON`, fire the notifier, update each registered
parent with `on_condition_event(cond, True)` and, when there were parents,
run a `report_condition_event` pass over them. -/
def durationElapse (fuel : Nat) (w : World) (cid : Nat) : World × Option EngErr :=
  if w.durTimers.contains cid then
    let w1 := { w with durTimers := eraseId w.durTimers cid
                     , tmoTimers := eraseId w.tmoTimers cid }
    let w2 :=
      match alookup w1.conditions cid with
      | some (obj, _) =>
          { w1 with conditions := aset w1.conditions cid (obj, ConditionState.ON) }
      | none => w1
    let w3 := notify w2 cid
    let parents := ((alookup w3.deps cid).getD []).filter
      (fun p => (alookup w3.conditions p).isSome)
    let w4 := parents.foldl (fun acc p => onCondEvent acc p cid true) w3
    if parents.isEmpty then (w4, none)
    else reportConditionEvent fuel w4 parents
  else (w, some .keyError)

/-! ### RuleUtilities.wait_until (builtin.py lines 156-167) -/

/-- A calendar date (`datetime.date`). -/
structure Date where
  year : Nat
  month : Nat
  day : Nat
deriving DecidableEq, Repr

/-- Gregorian leap-year rule. -/
def isLeap (y : Nat) : Bool :=
  (y % 4 == 0 && y % 100 != 0) || y % 400 == 0

/-- Days in a month of the proleptic Gregorian calendar. -/
def daysInMonth (y m : Nat) : Nat :=
  if m = 2 then (if isLeap y then 29 else 28)
  else if m = 4 ∨ m = 6 ∨ m = 9 ∨ m = 11 then 30
  else 31

/-- A time of day (`datetime.time`), seconds resolution. -/
structure TimeOfDay where
  hour : Nat
  minute : Nat
  second : Nat
deriving DecidableEq, Repr

/-- A local wall-clock instant (`datetime.datetime`). -/
structure DateTime where
  date : Date
  tod : TimeOfDay
deriving DecidableEq, Repr

/-- Monotone encoding of a datetime; with in-range fields (month <= 12,
day <= 31, hour < 24, minute < 60, second < 60) comparing the encodings
is exactly Python's field-lexicographic datetime comparison. -/
def DateTime.key (d : DateTime) : Nat :=
  ((((d.date.year * 13 + d.date.month) * 32 + d.date.day) * 24 + d.tod.hour)
      * 60 + d.tod.minute) * 60 + d.tod.second

/-- `<` on datetimes (`target_time < now`). -/
def dtLt (a b : DateTime) : Prop := a.key < b.key

instance (a b : DateTime) : Decidable (dtLt a b) := by unfold dtLt; infer_instance

/-- `date.replace(day=d)`: `datetime.date.replace` validates the new day
against the month length and raises `ValueError` otherwise (`none`). -/
def dateReplaceDay (d : Date) (newDay : Nat) : Option Date :=
  if 1 ≤ newDay ∧ newDay ≤ daysInMonth d.year d.month then
    some { d with day := newDay }
  else none

/-- The target-instant computation of `RuleUtilities.wait_until` (builtin.py
lines 162-166): combine today with `t`; if that is already past, combine
`now.date().replace(day=now.day + 1)` with `t` (raising `ValueError` — `none`
— when `day + 1` is not a valid day of the current month). -/
def waitUntilTarget (now : DateTime) (t : TimeOfDay) : Option DateTime :=
  let target : DateTime := ⟨now.date, t⟩
  if dtLt target now then
    match dateReplaceDay now.date (now.date.day + 1) with
    | some d => some ⟨d, t⟩
    | none => none
  else some target

/-! ### RuleUtilities.wait_for (builtin.py lines 169-237) -/

/-- `condition.duration = for_duration` before install (builtin.py line 188). -/
def CTree.withDuration : CTree → Nat → CTree
  | .node cid kind _ tmo subs, d => .node cid kind (some d) tmo subs

/-- `condition.timeout = timeout` inside `_wait_for_condition` (line 210). -/
def CTree.withTimeout : CTree → Nat → CTree
  | .node cid kind dur _ subs, x => .node cid kind dur (some x) subs

/-- The attribute mutations applied to the condition before it is installed:
`condition.duration = for_duration` (builtin.py line 188) and, inside
`_wait_for_condition`, `condition.timeout = timeout` (line 210). -/
def waitForTree (t : CTree) (tmo dur : Option Nat) : CTree :=
  match tmo, dur with
  | some x, some d => (t.withDuration d).withTimeout x
  | some x, none => t.withTimeout x
  | none, some d => t.withDuration d
  | none, none => t

/-- `RuleUtilities.wait_for(condition, timeout, for_duration)` together with
`_wait_for_condition`.  The `await` race of the two event-wait tasks is
abstracted by `winnerTimeout`: `true` means the task named "timeout" completed
first (only possible when a timeout event exists).  The result is the final
world, the returned boolean (`completed_task.get_name() != "timeout"` on the
race path, `True` on the timeout-free path) when the function returns, and
the exception when it raises: `ValueError` from the `timeout <= for_duration`
validation, or whatever `remove_condition` raises on the completion path
(builtin.py lines 228 and 236) — which, with no `removed` method on any
condition class, is always `AttributeError`, so the `return` is never
reached. -/
def waitFor (w : World) (t : CTree) (tmo dur : Option Nat) (winnerTimeout : Bool) :
    World × Option Bool × Option EngErr :=
  if tmo.isSome ∧ dur.isSome ∧ tmo.getD 0 ≤ dur.getD 0 then (w, none, some EngErr.valueError)
  else
    match removeCondition (addCondition w (waitForTree t tmo dur) true tmo.isSome)
        (waitForTree t tmo dur) with
    | (w2, some e) => (w2, none, some e)
    | (w2, none) =>
        (w2, some (if tmo.isSome then !winnerTimeout else true), none)

/-! ### RuleManager._run_timed_rule trigger selection (manager.py lines 226-244) -/

/-- Outcome of one trigger-selection pass of the timed-rule loop. -/
inductive TimedStep where
  /-- The outer `while (next := provider()) is not None` guard saw `None`:
  the coroutine returns, the task completes normally. -/
  | exitNone
  /-- `raise ValueError(...)` (a retry returned something that is not a
  datetime — in this model, `None`). -/
  | raiseValue
  /-- Line 239-241: the last trigger is still not in the future after the
  retries; the coroutine returns normally. -/
  | exitStale
  /-- A future trigger instant was obtained; the loop proceeds to sleep. -/
  | fire (t : Int)
deriving DecidableEq, Repr

/-- Result of the selection: how many times the provider was called in this
pass, and what happened. -/
structure TimedOutcome where
  provCalls : Nat
  result : TimedStep
deriving DecidableEq, Repr

/-- The retry loop of `_run_timed_rule` (manager.py lines 232-241): while the
trigger is not in the future and fewer than two retries were used, call the
provider again; a retry returning `None` fails the `isinstance` check and
raises.  After the loop, re-check against a fresh `now` (line 239 calls
`datetime.now()` again).  `rem` is the number of retries still allowed
(`2 - i` for the source's upward counter `i`), `prov n` is the result of the
n-th provider call (0-based), and `nowAt k` the k-th `datetime.now()` of this
pass; the guard consumes one `now` per evaluation.  With no retries left the
guard's comparison cannot change the outcome (the loop exits either way and
line 239 compares against the next fresh `now`), so the `0` equation goes
straight to that final comparison. -/
def retryLoop (prov : Nat → Option Int) (nowAt : Nat → Int) :
    Nat → Int → Nat → Nat → TimedOutcome
  | 0, t, calls, nowIdx =>
      if t ≤ nowAt (nowIdx + 1) then ⟨calls, .exitStale⟩
      else ⟨calls, .fire t⟩
  | rem + 1, t, calls, nowIdx =>
      if t ≤ nowAt nowIdx then
        match prov calls with
        | none => ⟨calls + 1, .raiseValue⟩
        | some t' => retryLoop prov nowAt rem t' (calls + 1) (nowIdx + 1)
      else
        if t ≤ nowAt (nowIdx + 1) then ⟨calls, .exitStale⟩
        else ⟨calls, .fire t⟩

/-- One trigger-selection pass of `_run_timed_rule`: the walrus call in the
outer `while` guard, then the retry loop with two retries allowed. -/
def selectTrigger (prov : Nat → Option Int) (nowAt : Nat → Int) : TimedOutcome :=
  match prov 0 with
  | none => ⟨1, .exitNone⟩
  | some t0 => retryLoop prov nowAt 2 t0 1 0

/-! ### Dictionary and set lemmas -/

theorem alookup_aset_self {α : Type} (l : List (Nat × α)) (k : Nat) (v : α) :
    alookup (aset l k v) k = some v := by
  induction l with
  | nil => simp [aset, alookup]
  | cons p rest ih =>
      by_cases h : p.1 = k
      · simp [aset, h, alookup]
      · simp [aset, h, alookup, ih]

theorem alookup_aset_ne {α : Type} (l : List (Nat × α)) (k k' : Nat) (v : α)
    (h : k' ≠ k) : alookup (aset l k v) k' = alookup l k' := by
  induction l with
  | nil => simp [aset, alookup, Ne.symm h]
  | cons p rest ih =>
      by_cases hp : p.1 = k
      · simp [aset, hp, alookup, Ne.symm h]
      · simp [aset, hp, alookup, ih]

theorem alookup_aerase_self {α : Type} (l : List (Nat × α)) (k : Nat) :
    alookup (aerase l k) k = none := by
  induction l with
  | nil => simp [aerase, alookup]
  | cons p rest ih =>
      by_cases h : p.1 = k
      · simpa [aerase, h] using ih
      · simpa [aerase, List.filter_cons, h, alookup] using ih

theorem mem_insertId (l : List Nat) (k a : Nat) :
    a ∈ insertId l k ↔ a ∈ l ∨ a = k := by
  unfold insertId
  split
  · next h =>
      have hk : k ∈ l := by simpa using h
      constructor
      · exact fun ha => Or.inl ha
      · rintro (ha | rfl)
        · exact ha
        · exact hk
  · next h => simp [List.mem_append]

theorem mem_eraseId (l : List Nat) (k a : Nat) :
    a ∈ eraseId l k ↔ a ∈ l ∧ a ≠ k := by
  simp [eraseId, List.mem_filter]

theorem alookup_bumpCount_self (l : List (Nat × Nat)) (k : Nat) :
    alookup (bumpCount l k) k = some ((alookup l k).getD 0 + 1) := by
  simp [bumpCount, alookup_aset_self]

theorem alookup_bumpCount_ne (l : List (Nat × Nat)) (k k' : Nat) (h : k' ≠ k) :
    alookup (bumpCount l k) k' = alookup l k' := by
  simp [bumpCount, alookup_aset_ne _ _ _ _ h]

/-! ### Frame lemmas: which fields each operation can touch -/

theorem onCondEvent_frame (w : World) (pid childId : Nat) (b : Bool) :
    ∃ c, onCondEvent w pid childId b = { w with caches := c } := by
  unfold onCondEvent
  split
  · split
    · split
      · exact ⟨_, rfl⟩
      · exact ⟨w.caches, rfl⟩
    · exact ⟨w.caches, rfl⟩
  · exact ⟨w.caches, rfl⟩

theorem informParents_frame (w : World) (childId : Nat) (b : Bool) :
    ∃ c, (informParents w childId b).1 = { w with caches := c } := by
  unfold informParents
  generalize (alookup w.deps childId).getD [] = ps
  suffices h : ∀ (ps : List Nat) (start : World × List Nat) (c : List (Nat × List (Nat × Bool))),
      start.1 = { w with caches := c } →
      ∃ c', (ps.foldl (fun (acc : World × List Nat) pid =>
        match alookup acc.1.conditions pid with
        | some _ => (onCondEvent acc.1 pid childId b, acc.2 ++ [pid])
        | none => acc) start).1 = { w with caches := c' } by
    exact h ps (w, []) w.caches rfl
  intro ps
  induction ps with
  | nil => intro start c hc; exact ⟨c, hc⟩
  | cons p rest ih =>
      intro start c hc
      simp only [List.foldl_cons]
      rcases hl : alookup start.1.conditions p with _ | v
      · exact ih start c hc
      · obtain ⟨c2, hc2⟩ := onCondEvent_frame start.1 p childId b
        exact ih _ _ (by rw [hc2, hc])

theorem initializeCond_frame (w : World) (cid : Nat) (kind : CondKind)
    (states : List (Nat × Bool)) :
    ∃ c, initializeCond w cid kind states = { w with caches := c } := by
  unfold initializeCond
  cases kind with
  | boolc op => exact ⟨_, rfl⟩
  | leaf => exact ⟨w.caches, rfl⟩
  | alwaysTrue => exact ⟨w.caches, rfl⟩
  | alwaysFalse => exact ⟨w.caches, rfl⟩

/-! ### Characterization of add_condition -/

/-- The `state = condition.evaluate()` value computed inside `add_condition`
(core.py line 77), after `initialize` has seeded the caches. -/
def addEval (w : World) (cid : Nat) (kind : CondKind) (subIds : List Nat) : Bool :=
  evaluateObj (initializeCond w cid kind (childStates w subIds)) cid ⟨kind, subIds, none, none⟩

set_option maxHeartbeats 2000000 in
theorem addRoot_spec (w : World) (cid : Nat) (kind : CondKind) (dur tmo : Option Nat)
    (subIds : List Nat) (hasEv hasTo : Bool) :
    (alookup (addRoot w cid kind dur tmo subIds hasEv hasTo).conditions cid =
        some (⟨kind, subIds, dur, tmo⟩,
          if addEval w cid kind subIds = true then
            (if dur.isSome then ConditionState.PENDING else ConditionState.ON)
          else ConditionState.OFF)) ∧
    ((addRoot w cid kind dur tmo subIds hasEv hasTo).tmoTimers =
        if (addEval w cid kind subIds = false ∨
             (addEval w cid kind subIds = true ∧ dur.isSome)) ∧ tmo.isSome then
          insertId w.tmoTimers cid
        else w.tmoTimers) ∧
    ((addRoot w cid kind dur tmo subIds hasEv hasTo).durTimers =
        if addEval w cid kind subIds = true ∧ dur.isSome then
          insertId w.durTimers cid
        else w.durTimers) ∧
    ((addRoot w cid kind dur tmo subIds hasEv hasTo).eventIds =
        if hasEv = true then insertId w.eventIds cid else w.eventIds) ∧
    ((addRoot w cid kind dur tmo subIds hasEv hasTo).toEventIds =
        if hasTo = true then insertId w.toEventIds cid else w.toEventIds) := by
  obtain ⟨c, hc⟩ := initializeCond_frame w cid kind (childStates w subIds)
  have hev : evaluateObj (initializeCond w cid kind (childStates w subIds)) cid
      ⟨kind, subIds, dur, tmo⟩ = addEval w cid kind subIds := rfl
  simp only [addRoot]
  rw [hev, hc]
  rcases hst : addEval w cid kind subIds <;> cases dur <;> cases tmo <;>
    cases hasEv <;> cases hasTo <;>
      simp [hst, alookup_aset_self]

set_option maxHeartbeats 2000000 in
theorem addRoot_frame (w : World) (cid : Nat) (kind : CondKind) (dur tmo : Option Nat)
    (subIds : List Nat) (hasEv hasTo : Bool) :
    (addRoot w cid kind dur tmo subIds hasEv hasTo).notifyCalls = w.notifyCalls ∧
    (addRoot w cid kind dur tmo subIds hasEv hasTo).toCalls = w.toCalls ∧
    (addRoot w cid kind dur tmo subIds hasEv hasTo).leafVals = w.leafVals := by
  obtain ⟨c, hc⟩ := initializeCond_frame w cid kind (childStates w subIds)
  refine ⟨?_, ?_, ?_⟩ <;>
    (simp only [addRoot]; rw [hc]; repeat' split) <;> rfl

mutual
theorem addCondition_frame (w : World) (t : CTree) (ev tev : Bool) :
    (addCondition w t ev tev).notifyCalls = w.notifyCalls ∧
    (addCondition w t ev tev).toCalls = w.toCalls ∧
    (addCondition w t ev tev).leafVals = w.leafVals := by
  cases t with
  | node cid kind dur tmo subs =>
      have ihs := addSubs_frame w cid subs
      have hr := addRoot_frame (addSubs w cid subs) cid kind dur tmo
        (subs.map CTree.cid) ev tev
      exact ⟨hr.1.trans ihs.1, hr.2.1.trans ihs.2.1, hr.2.2.trans ihs.2.2⟩

theorem addSubs_frame (w : World) (pid : Nat) (subs : List CTree) :
    (addSubs w pid subs).notifyCalls = w.notifyCalls ∧
    (addSubs w pid subs).toCalls = w.toCalls ∧
    (addSubs w pid subs).leafVals = w.leafVals := by
  match subs with
  | [] => exact ⟨rfl, rfl, rfl⟩
  | s :: rest =>
      have ih1 := addCondition_frame w s false false
      have ih2 := addSubs_frame
        { addCondition w s false false with
          deps := aset (addCondition w s false false).deps s.cid
            (insertId ((alookup (addCondition w s false false).deps s.cid).getD []) pid) }
        pid rest
      exact ⟨ih2.1.trans ih1.1, ih2.2.1.trans ih1.2.1, ih2.2.2.trans ih1.2.2⟩
end

/-! ### Further helper lemmas -/

theorem snapshot_none_of_missing (w : World) (ids : List Nat)
    (h : ∃ cid ∈ ids, alookup w.conditions cid = none) : snapshot w ids = none := by
  induction ids with
  | nil => simp at h
  | cons c rest ih =>
      obtain ⟨cid, hmem, hnone⟩ := h
      rcases List.mem_cons.mp hmem with rfl | hm
      · simp [snapshot, hnone]
      · rcases hl : alookup w.conditions c with _ | ⟨obj, st⟩
        · simp [snapshot, hl]
        · have hrest := ih ⟨cid, hm, hnone⟩
          simp [snapshot, hl, hrest]

/-- The initial-state table of `add_condition` as computed by the branch
structure of core.py lines 88-104. -/
def initialState (st : Bool) (dur : Option Nat) : ConditionState :=
  if st = true then
    (if dur.isSome then ConditionState.PENDING else ConditionState.ON)
  else ConditionState.OFF

/-! ### Claim theorems -/

/-- **C10** (confirmed).  `report_condition_event` requires every passed
condition to be registered: an unregistered instance id raises `KeyError`
while building the `previous_state` snapshot, before any mutation, leaving
the engine state unchanged. -/
theorem report_unregistered_keyError (fuel : Nat) (w : World) (ids : List Nat)
    (h : ∃ cid ∈ ids, alookup w.conditions cid = none) :
    reportConditionEvent fuel w ids = (w, some EngErr.keyError) := by
  unfold reportConditionEvent
  rw [snapshot_none_of_missing w ids h]

/-- Witness for C10: reporting an unregistered id on the empty engine. -/
theorem report_unregistered_keyError_witness :
    (∃ cid ∈ [5], alookup World.empty.conditions cid = none) ∧
    reportConditionEvent 3 World.empty [5] = (World.empty, some EngErr.keyError) :=
  ⟨⟨5, by decide, rfl⟩,
   report_unregistered_keyError 3 World.empty [5] ⟨5, by decide, rfl⟩⟩

/-- **C2** (counterexample).  A leaf installed while true is stored `ON`; after
its value flips to false, a `report_condition_event` pass completes without
error but leaves the stored state `ON` — the computed `new_state = OFF` is
*not* stored into the conditions map, contradicting the claim. -/
theorem report_else_branch_counterexample :
    let w1 := addCondition { World.empty with leafVals := [(1, true)] }
      (CTree.node 1 CondKind.leaf none none []) true false
    let w2 := { w1 with leafVals := aset w1.leafVals 1 false }
    alookup w2.conditions 1 =
        some (⟨CondKind.leaf, [], none, none⟩, ConditionState.ON) ∧
    evaluateObj w2 1 ⟨CondKind.leaf, [], none, none⟩ = false ∧
    (reportConditionEvent 5 w2 [1]).2 = none ∧
    alookup (reportConditionEvent 5 w2 [1]).1.conditions 1 =
        some (⟨CondKind.leaf, [], none, none⟩, ConditionState.ON) := by
  decide

/-- **C2** (amended).  For a visited node not matching one of the two
OFF-and-evaluates-true branches, `new_state = OFF` is computed and each parent
is informed via `on_condition_event` with `new_state.is_on() = false`, but
nothing is stored: the conditions map and the duration timers are left
unchanged, so an `ON`/`PENDING` node whose evaluation is now false keeps its
stored state. -/
theorem report_else_branch_no_store (w : World) (cid : Nat) (obj : CondObj)
    (st : ConditionState)
    (h1 : alookup w.conditions cid = some (obj, st))
    (h2 : ¬(st = ConditionState.OFF ∧ evaluateObj w cid obj = true)) :
    processNode w cid = (informParents w cid false, none) ∧
    (processNode w cid).1.1.conditions = w.conditions ∧
    (processNode w cid).1.1.durTimers = w.durTimers := by
  have hA : ¬(st = ConditionState.OFF ∧ evaluateObj w cid obj = true ∧
      obj.duration.isSome = true) := fun hx => h2 ⟨hx.1, hx.2.1⟩
  have hmain : processNode w cid = (informParents w cid false, none) := by
    unfold processNode
    rw [h1]
    simp only [if_neg hA, if_neg h2]
    rfl
  refine ⟨hmain, ?_, ?_⟩ <;> rw [hmain] <;>
    obtain ⟨c, hc⟩ := informParents_frame w cid false <;> rw [hc]

/-- Witness for C2's amended theorem: a registered `ON` leaf that now
evaluates false. -/
theorem report_else_branch_no_store_witness :
    let w : World := { World.empty with
      leafVals := [(1, false)]
      conditions := [(1, (⟨CondKind.leaf, [], none, none⟩, ConditionState.ON))] }
    (alookup w.conditions 1 =
        some (⟨CondKind.leaf, [], none, none⟩, ConditionState.ON)) ∧
    ¬(ConditionState.ON = ConditionState.OFF ∧
        evaluateObj w 1 ⟨CondKind.leaf, [], none, none⟩ = true) ∧
    processNode w 1 = (informParents w 1 false, none) :=
  ⟨by decide, by decide,
   (report_else_branch_no_store _ 1 ⟨CondKind.leaf, [], none, none⟩
      ConditionState.ON (by decide) (by decide)).1⟩

/-- **C3** (code_bug).  A leaf installed with a duration while true is stored
`PENDING` with an armed duration timer; after its value flips to false, the
`report_condition_event` pass completes but the timer is *not* cancelled and
the stored state stays `PENDING` (the `PENDING -> OFF` cancellation branch of
core.py lines 194-199 is unreachable because the `OFF` state is never
stored back), contradicting the claimed abort path. -/
theorem report_pending_timer_not_cancelled :
    let w1 : World := addCondition { World.empty with leafVals := [(1, true)] }
      (CTree.node 1 CondKind.leaf (some 5) none []) true false
    let w2 := { w1 with leafVals := aset w1.leafVals 1 false }
    alookup w2.conditions 1 =
        some (⟨CondKind.leaf, [], some 5, none⟩, ConditionState.PENDING) ∧
    w2.durTimers = [1] ∧
    evaluateObj w2 1 ⟨CondKind.leaf, [], some 5, none⟩ = false ∧
    (reportConditionEvent 5 w2 [1]).2 = none ∧
    (reportConditionEvent 5 w2 [1]).1.durTimers = [1] ∧
    alookup (reportConditionEvent 5 w2 [1]).1.conditions 1 =
        some (⟨CondKind.leaf, [], some 5, none⟩, ConditionState.PENDING) := by
  decide

/-- **C1** (code_bug).  The end-to-end AND scenario crashes instead of running
to completion: with `a = leaf(false)`, `b = leaf(false)`, `c = a AND b`
installed with a fired event on `c`, flipping `a` true and calling
`report_condition_event([a])` raises `KeyError` — the post-propagation loop
reads `previous_state[c]` but the snapshot only covers the reported
conditions, not touched ancestors — and `c`'s event is never set. -/
theorem and_scenario_report_raises :
    let w0 : World := { World.empty with
      leafVals := [(1, false), (2, false)]
      caches := [(3, [(1, false), (2, false)])] }
    let w1 := addCondition w0
      (CTree.node 3 (CondKind.boolc BoolOp.andOp) none none
        [CTree.node 1 CondKind.leaf none none [],
         CTree.node 2 CondKind.leaf none none []]) true false
    let w2 := { w1 with leafVals := aset w1.leafVals 1 true }
    (reportConditionEvent 10 w2 [1]).2 = some EngErr.keyError ∧
    alookup (reportConditionEvent 10 w2 [1]).1.notifyCalls 3 = none := by
  decide

/-- **C8** (code_bug).  `wait_until` computes the next-day target with
`now.date().replace(day=now.day + 1)`, which raises `ValueError` on the last
day of a month; mid-month the next-day and same-day targets are correct. -/
theorem wait_until_month_end_raises :
    waitUntilTarget ⟨⟨2026, 1, 31⟩, ⟨23, 0, 0⟩⟩ ⟨22, 0, 0⟩ = none ∧
    waitUntilTarget ⟨⟨2026, 1, 15⟩, ⟨23, 0, 0⟩⟩ ⟨22, 0, 0⟩ =
        some ⟨⟨2026, 1, 16⟩, ⟨22, 0, 0⟩⟩ ∧
    waitUntilTarget ⟨⟨2026, 1, 15⟩, ⟨8, 0, 0⟩⟩ ⟨22, 0, 0⟩ =
        some ⟨⟨2026, 1, 15⟩, ⟨22, 0, 0⟩⟩ := by
  decide

/-- **C9** (counterexample).  A provider that returns a stale instant and then
`None` makes the timed-rule loop raise `ValueError` (the retry path re-checks
`isinstance(None, datetime)`), so "provider returns null" does not always end
the rule gracefully. -/
theorem timed_rule_retry_none_raises :
    selectTrigger (fun n => if n = 0 then some 0 else none) (fun _ => 10) =
      ⟨2, TimedStep.raiseValue⟩ := by
  decide

theorem retryLoop_calls_le (prov : Nat → Option Int) (nowAt : Nat → Int) :
    ∀ (rem : Nat) (t : Int) (calls nowIdx : Nat),
      (retryLoop prov nowAt rem t calls nowIdx).provCalls ≤ calls + rem := by
  intro rem
  induction rem with
  | zero =>
      intro t calls nowIdx
      unfold retryLoop
      split <;> simp
  | succ r ih =>
      intro t calls nowIdx
      unfold retryLoop
      split
      · rcases hp : prov calls with _ | t'
        · simp only []
          omega
        · have := ih t' (calls + 1) (nowIdx + 1)
          simp only []
          omega
      · split <;> simp

theorem retryLoop_stale (prov : Nat → Option Int) (nowAt : Nat → Int)
    (hall : ∀ n, ∃ u, prov n = some u ∧ ∀ k, u ≤ nowAt k) :
    ∀ (rem : Nat) (t : Int) (calls nowIdx : Nat), (∀ k, t ≤ nowAt k) →
      (retryLoop prov nowAt rem t calls nowIdx).result = TimedStep.exitStale := by
  intro rem
  induction rem with
  | zero =>
      intro t calls nowIdx ht
      unfold retryLoop
      rw [if_pos (ht (nowIdx + 1))]
  | succ r ih =>
      intro t calls nowIdx ht
      unfold retryLoop
      rw [if_pos (ht nowIdx)]
      obtain ⟨u, hu, hub⟩ := hall (calls)
      rw [hu]
      exact ih u (calls + 1) (nowIdx + 1) hub

/-- **C9** (amended).  In one trigger-selection pass of `_run_timed_rule`: the
provider is called at most three times; `None` from the outer loop guard ends
the rule gracefully; a provider whose instants are never in the future ends
the pass gracefully (normal return); but `None` returned by a *retry* raises a
validation error instead of ending gracefully. -/
theorem timed_rule_selection (prov : Nat → Option Int) (nowAt : Nat → Int) :
    (selectTrigger prov nowAt).provCalls ≤ 3 ∧
    (prov 0 = none → selectTrigger prov nowAt = ⟨1, TimedStep.exitNone⟩) ∧
    ((∀ n, ∃ u, prov n = some u ∧ ∀ k, u ≤ nowAt k) →
        (selectTrigger prov nowAt).result = TimedStep.exitStale) ∧
    (∀ t0, prov 0 = some t0 → t0 ≤ nowAt 0 → prov 1 = none →
        selectTrigger prov nowAt = ⟨2, TimedStep.raiseValue⟩) := by
  refine ⟨?_, ?_, ?_, ?_⟩
  · unfold selectTrigger
    rcases hp : prov 0 with _ | t0
    · simp
    · have := retryLoop_calls_le prov nowAt 2 t0 1 0
      simpa using this
  · intro h
    unfold selectTrigger
    rw [h]
  · intro hall
    unfold selectTrigger
    obtain ⟨u, hu, hub⟩ := hall 0
    rw [hu]
    exact retryLoop_stale prov nowAt hall 2 u 1 0 hub
  · intro t0 h0 hle h1
    unfold selectTrigger
    rw [h0]
    unfold retryLoop
    rw [if_pos hle, h1]

/-- Witness for C9's amended theorem: an always-stale provider ends the pass
gracefully in three calls, and a retry-`None` provider raises. -/
theorem timed_rule_selection_witness :
    ((selectTrigger (fun _ => some 0) (fun _ => 10)).provCalls ≤ 3 ∧
      (selectTrigger (fun _ => some 0) (fun _ => 10)).result = TimedStep.exitStale) ∧
    selectTrigger (fun n => if n = 0 then some (1 : Int) else none) (fun _ => 10) =
      ⟨2, TimedStep.raiseValue⟩ :=
  ⟨⟨(timed_rule_selection (fun _ => some 0) (fun _ => 10)).1,
    (timed_rule_selection (fun _ => some 0) (fun _ => 10)).2.2.1
      (fun _ => ⟨0, rfl, fun _ => by omega⟩)⟩,
   (timed_rule_selection (fun n => if n = 0 then some (1 : Int) else none)
      (fun _ => 10)).2.2.2 1 rfl (by omega) rfl⟩

/-- **C4** (confirmed).  `add_condition` records the initial state of the added
condition per the initial-state table (`evaluate` false -> OFF; true with no
duration -> ON; true with duration -> PENDING with a duration timer armed),
arms a timeout timer exactly when a timeout is set and the initial state is
OFF or PENDING, and never sets the fired or timed_out event during the call
(the notify counters are untouched). -/
theorem add_condition_initial_state (w : World) (cid : Nat) (kind : CondKind)
    (dur tmo : Option Nat) (subs : List CTree) (ev tev : Bool)
    (hd : cid ∉ (addSubs w cid subs).durTimers)
    (ht : cid ∉ (addSubs w cid subs).tmoTimers) :
    alookup (addCondition w (CTree.node cid kind dur tmo subs) ev tev).conditions cid =
        some (⟨kind, subs.map CTree.cid, dur, tmo⟩,
          initialState (addEval (addSubs w cid subs) cid kind (subs.map CTree.cid)) dur) ∧
    (cid ∈ (addCondition w (CTree.node cid kind dur tmo subs) ev tev).tmoTimers ↔
        (tmo.isSome = true ∧
          (initialState (addEval (addSubs w cid subs) cid kind (subs.map CTree.cid)) dur =
              ConditionState.OFF ∨
           initialState (addEval (addSubs w cid subs) cid kind (subs.map CTree.cid)) dur =
              ConditionState.PENDING))) ∧
    (cid ∈ (addCondition w (CTree.node cid kind dur tmo subs) ev tev).durTimers ↔
        initialState (addEval (addSubs w cid subs) cid kind (subs.map CTree.cid)) dur =
          ConditionState.PENDING) ∧
    (addCondition w (CTree.node cid kind dur tmo subs) ev tev).notifyCalls =
        w.notifyCalls ∧
    (addCondition w (CTree.node cid kind dur tmo subs) ev tev).toCalls = w.toCalls := by
  have hadd : addCondition w (CTree.node cid kind dur tmo subs) ev tev =
      addRoot (addSubs w cid subs) cid kind dur tmo (subs.map CTree.cid) ev tev := rfl
  obtain ⟨hlook, htmo, hdur, _, _⟩ :=
    addRoot_spec (addSubs w cid subs) cid kind dur tmo (subs.map CTree.cid) ev tev
  have hframe := addCondition_frame w (CTree.node cid kind dur tmo subs) ev tev
  refine ⟨?_, ?_, ?_, hframe.1, hframe.2.1⟩
  · rw [hadd, hlook]
    rfl
  · rw [hadd, htmo]
    rcases hst : addEval (addSubs w cid subs) cid kind (subs.map CTree.cid) <;>
      cases dur <;> cases tmo <;>
        simp [initialState, hst, mem_insertId, ht]
  · rw [hadd, hdur]
    rcases hst : addEval (addSubs w cid subs) cid kind (subs.map CTree.cid) <;>
      cases dur <;>
        simp [initialState, hst, mem_insertId, hd]

/-- Witness for C4: a leaf that evaluates true with both a duration and a
timeout starts PENDING with both timers armed and no event set. -/
theorem add_condition_initial_state_witness :
    (1 ∉ (addSubs { World.empty with leafVals := [(1, true)] } 1 []).durTimers ∧
     1 ∉ (addSubs { World.empty with leafVals := [(1, true)] } 1 []).tmoTimers) ∧
    (alookup (addCondition { World.empty with leafVals := [(1, true)] }
        (CTree.node 1 CondKind.leaf (some 5) (some 9) []) true true).conditions 1 =
      some (⟨CondKind.leaf, [], some 5, some 9⟩,
        initialState (addEval (addSubs { World.empty with leafVals := [(1, true)] } 1 [])
          1 CondKind.leaf []) (some 5))) :=
  ⟨⟨by decide, by decide⟩,
   (add_condition_initial_state { World.empty with leafVals := [(1, true)] }
      1 CondKind.leaf (some 5) (some 9) [] true true (by decide) (by decide)).1⟩

/-- **C5** (code_bug).  `remove_condition` never completes: the guarded
deletions of the condition's own `conditions`/`dependencies` entries and
timers succeed, but the call to `condition.removed()` (core.py line 123) then
raises `AttributeError` — no condition class in this repository defines
`removed` — so the call is not silent, the subconditions are never recursively
removed, and a call for an absent condition raises instead of completing
silently.  Evaluated on an installed AND composite: the root's entry is
deleted, the error is raised, and both leaf entries survive. -/
theorem remove_condition_raises :
    (∀ (w : World) (t : CTree), (removeCondition w t).2 = some EngErr.attributeError) ∧
    (let w0 : World := { World.empty with
        leafVals := [(1, false), (2, false)]
        caches := [(3, [(1, false), (2, false)])] }
     let tree : CTree := CTree.node 3 (CondKind.boolc BoolOp.andOp) none none
        [CTree.node 1 CondKind.leaf none none [],
         CTree.node 2 CondKind.leaf none none []]
     let w1 : World := addCondition w0 tree true false
     (removeCondition w1 tree).2 = some EngErr.attributeError ∧
     alookup (removeCondition w1 tree).1.conditions 3 = none ∧
     alookup (removeCondition w1 tree).1.conditions 1 =
       some (⟨CondKind.leaf, [], none, none⟩, ConditionState.OFF) ∧
     alookup (removeCondition w1 tree).1.conditions 2 =
       some (⟨CondKind.leaf, [], none, none⟩, ConditionState.OFF)) := by
  refine ⟨?_, ?_⟩
  · intro w t
    cases t
    rfl
  · decide

/-- **C7** (code_bug).  `wait_for` raises its validation `ValueError` exactly
when both optional arguments are given with `timeout <= for_duration`; on
every other path it installs the condition, awaits the race, and then raises
`AttributeError` out of the unconditional `remove_condition` cleanup
(builtin.py lines 228 and 236; no condition class defines `removed`), so it
never reaches its `return` and never yields the claimed boolean. -/
theorem wait_for_raises (w : World) (t : CTree) (tmo dur : Option Nat)
    (winnerTimeout : Bool) :
    (waitFor w t tmo dur winnerTimeout).2.2 =
      some (if tmo.isSome ∧ dur.isSome ∧ tmo.getD 0 ≤ dur.getD 0 then
              EngErr.valueError
            else EngErr.attributeError) ∧
    (waitFor w t tmo dur winnerTimeout).2.1 = none := by
  unfold waitFor
  by_cases hV : (tmo.isSome ∧ dur.isSome ∧ tmo.getD 0 ≤ dur.getD 0)
  · rw [if_pos hV, if_pos hV]
    exact ⟨rfl, rfl⟩
  · rw [if_neg hV, if_neg hV]
    rcases hr : removeCondition
        (addCondition w (waitForTree t tmo dur) true tmo.isSome)
        (waitForTree t tmo dur) with ⟨w2, e⟩
    have he : e = some EngErr.attributeError := by
      have hall : (removeCondition
          (addCondition w (waitForTree t tmo dur) true tmo.isSome)
          (waitForTree t tmo dur)).2 = some EngErr.attributeError := by
        cases waitForTree t tmo dur
        rfl
      rw [hr] at hall
      exact hall
    subst he
    exact ⟨rfl, rfl⟩

/-! ### C6: terminality of TIMEOUT -/

/-- The state established by a timeout elapse: the condition is stored
`TIMEOUT` with its object intact and neither timer registered. -/
def timeoutTerminal (w : World) (cid : Nat) (obj : CondObj) : Prop :=
  alookup w.conditions cid = some (obj, ConditionState.TIMEOUT) ∧
  cid ∉ w.durTimers ∧ cid ∉ w.tmoTimers

theorem notify_frame (w : World) (cid : Nat) :
    ∃ nc, notify w cid = { w with notifyCalls := nc } := by
  unfold notify
  split
  · exact ⟨_, rfl⟩
  · exact ⟨w.notifyCalls, rfl⟩

theorem notifyTimeout_frame (w : World) (cid : Nat) :
    ∃ nc, notifyTimeout w cid = { w with toCalls := nc } := by
  unfold notifyTimeout
  split
  · exact ⟨_, rfl⟩
  · exact ⟨w.toCalls, rfl⟩

theorem informParents_pres (w : World) (childId : Nat) (b : Bool) (cid : Nat)
    (obj : CondObj) (h : timeoutTerminal w cid obj) :
    timeoutTerminal (informParents w childId b).1 cid obj := by
  obtain ⟨c, hc⟩ := informParents_frame w childId b
  rw [hc]
  exact h

theorem processNode_pres (w : World) (cid' cid : Nat) (obj : CondObj)
    (h : timeoutTerminal w cid obj) :
    timeoutTerminal (processNode w cid').1.1 cid obj := by
  unfold processNode
  rcases hl : alookup w.conditions cid' with _ | ⟨obj', st'⟩
  · exact h
  · have hne : st' = ConditionState.OFF → cid' ≠ cid := by
      intro hoff he
      subst he
      rw [h.1] at hl
      injection hl with hpair
      injection hpair with ho hs
      subst hs
      exact ConditionState.noConfusion hoff
    dsimp only
    by_cases hb1 : st' = ConditionState.OFF ∧ evaluateObj w cid' obj' = true ∧
        obj'.duration.isSome = true
    · rw [if_pos hb1]
      have hne1 := hne hb1.1
      refine informParents_pres _ _ _ _ _ ⟨?_, ?_, h.2.2⟩
      · rw [alookup_aset_ne _ _ _ _ (Ne.symm hne1)]
        exact h.1
      · intro hmem
        rcases (mem_insertId _ _ _).mp hmem with hm | he
        · exact h.2.1 hm
        · exact hne1 he.symm
    · rw [if_neg hb1]
      by_cases hb2 : st' = ConditionState.OFF ∧ evaluateObj w cid' obj' = true
      · rw [if_pos hb2]
        have hne1 := hne hb2.1
        refine informParents_pres _ _ _ _ _ ⟨?_, h.2.1, h.2.2⟩
        rw [alookup_aset_ne _ _ _ _ (Ne.symm hne1)]
        exact h.1
      · rw [if_neg hb2]
        exact informParents_pres _ _ _ _ _ h

theorem bfs_pres (cid : Nat) (obj : CondObj) :
    ∀ (fuel : Nat) (w : World) (work touched : List Nat),
      timeoutTerminal w cid obj → timeoutTerminal (bfs fuel w work touched).1 cid obj := by
  intro fuel
  induction fuel with
  | zero =>
      intro w work touched h
      cases work <;> exact h
  | succ f ih =>
      intro w work touched h
      cases work with
      | nil => exact h
      | cons cid' rest =>
          have hp := processNode_pres w cid' cid obj h
          unfold bfs
          rcases hpr : processNode w cid' with ⟨⟨w', nw⟩, e⟩
          rw [hpr] at hp
          cases e with
          | none => exact ih w' (rest ++ nw) _ hp
          | some e => exact hp

theorem finishNode_pres (w : World) (prev : List (Nat × ConditionState))
    (cid' cid : Nat) (obj : CondObj) (h : timeoutTerminal w cid obj) :
    timeoutTerminal (finishNode w prev cid').1 cid obj := by
  unfold finishNode
  rcases hl : alookup w.conditions cid' with _ | ⟨objx, curr⟩
  · exact h
  · rcases hp : alookup prev cid' with _ | prevSt
    · exact h
    · dsimp only
      by_cases hA : prevSt = ConditionState.OFF ∧ curr = ConditionState.ON <;>
        by_cases hB : prevSt = ConditionState.PENDING ∧ curr = ConditionState.OFF
      · rw [if_pos hA, if_pos hB]
        obtain ⟨nc, hnc⟩ := notify_frame { w with tmoTimers := eraseId w.tmoTimers cid' } cid'
        rw [hnc]
        exact ⟨h.1, fun hm => h.2.1 ((mem_eraseId _ _ _).mp hm).1,
               fun hm => h.2.2 ((mem_eraseId _ _ _).mp hm).1⟩
      · rw [if_pos hA, if_neg hB]
        obtain ⟨nc, hnc⟩ := notify_frame { w with tmoTimers := eraseId w.tmoTimers cid' } cid'
        rw [hnc]
        exact ⟨h.1, h.2.1, fun hm => h.2.2 ((mem_eraseId _ _ _).mp hm).1⟩
      · rw [if_neg hA, if_pos hB]
        exact ⟨h.1, fun hm => h.2.1 ((mem_eraseId _ _ _).mp hm).1, h.2.2⟩
      · rw [if_neg hA, if_neg hB]
        exact h

theorem finishLoop_pres (w : World) (prev : List (Nat × ConditionState))
    (touched : List Nat) (cid : Nat) (obj : CondObj) (h : timeoutTerminal w cid obj) :
    timeoutTerminal (finishLoop w prev touched).1 cid obj := by
  unfold finishLoop
  split
  · suffices hfold : ∀ (l : List Nat) (acc : World × Option EngErr),
        timeoutTerminal acc.1 cid obj →
        timeoutTerminal (l.foldl
          (fun acc cid' =>
            match acc.2 with
            | some _ => acc
            | none => finishNode acc.1 prev cid') acc).1 cid obj by
      exact hfold touched (w, none) h
    intro l
    induction l with
    | nil => intro acc hacc; exact hacc
    | cons x rest ih =>
        intro acc hacc
        simp only [List.foldl_cons]
        rcases acc with ⟨wa, ea⟩
        cases ea with
        | none => exact ih _ (finishNode_pres wa prev x cid obj hacc)
        | some e => exact ih _ hacc
  · exact h

theorem report_pres (fuel : Nat) (w : World) (ids : List Nat) (cid : Nat)
    (obj : CondObj) (h : timeoutTerminal w cid obj) :
    timeoutTerminal (reportConditionEvent fuel w ids).1 cid obj := by
  unfold reportConditionEvent
  rcases snapshot w ids with _ | prev
  · exact h
  · dsimp only
    split
    case isTrue =>
      have hb := bfs_pres cid obj fuel w ids [] h
      rcases hbr : bfs fuel w ids [] with ⟨w', touched, e⟩
      rw [hbr] at hb
      cases e with
      | none => exact finishLoop_pres w' prev touched cid obj hb
      | some e => exact hb
    case isFalse => exact h

theorem notify_pres (w : World) (x cid : Nat) (obj : CondObj)
    (h : timeoutTerminal w cid obj) : timeoutTerminal (notify w x) cid obj := by
  obtain ⟨nc, hnc⟩ := notify_frame w x
  rw [hnc]
  exact h

theorem notifyTimeout_pres (w : World) (x cid : Nat) (obj : CondObj)
    (h : timeoutTerminal w cid obj) : timeoutTerminal (notifyTimeout w x) cid obj := by
  obtain ⟨nc, hnc⟩ := notifyTimeout_frame w x
  rw [hnc]
  exact h

theorem timeoutElapse_pres (w : World) (x cid : Nat) (obj : CondObj)
    (h : timeoutTerminal w cid obj) :
    timeoutTerminal (timeoutElapse w x).1 cid obj := by
  unfold timeoutElapse
  split
  · next hx =>
      have hne : x ≠ cid := by
        intro he
        subst he
        exact h.2.2 (by simpa using hx)
      dsimp only
      refine notifyTimeout_pres _ x cid obj ?_
      split
      · next objx stx heq =>
          refine ⟨?_, ?_, ?_⟩
          · rw [alookup_aset_ne _ _ _ _ (Ne.symm hne)]
            exact h.1
          · intro hm
            exact h.2.1 ((mem_eraseId _ _ _).mp hm).1
          · intro hm
            exact h.2.2 ((mem_eraseId _ _ _).mp hm).1
      · refine ⟨h.1, ?_, ?_⟩
        · intro hm
          exact h.2.1 ((mem_eraseId _ _ _).mp hm).1
        · intro hm
          exact h.2.2 ((mem_eraseId _ _ _).mp hm).1
  · exact h

theorem foldl_onCondEvent_pres (x : Nat) (b : Bool) (cid : Nat) (obj : CondObj) :
    ∀ (ps : List Nat) (w : World), timeoutTerminal w cid obj →
      timeoutTerminal (ps.foldl (fun acc p => onCondEvent acc p x b) w) cid obj := by
  intro ps
  induction ps with
  | nil => intro w h; exact h
  | cons p rest ih =>
      intro w h
      simp only [List.foldl_cons]
      refine ih _ ?_
      obtain ⟨c, hc⟩ := onCondEvent_frame w p x b
      rw [hc]
      exact h

theorem ifReportPair_pres (fuel : Nat) (cid : Nat) (obj : CondObj) (w4 : World)
    (ids : List Nat) (b : Bool) (h4 : timeoutTerminal w4 cid obj) :
    timeoutTerminal ((if b = true then ((w4 : World), (none : Option EngErr))
      else reportConditionEvent fuel w4 ids).1) cid obj := by
  by_cases hb : b = true
  · rw [if_pos hb]
    exact h4
  · rw [if_neg hb]
    exact report_pres fuel w4 ids cid obj h4

theorem durationElapse_pres (fuel : Nat) (w : World) (x cid : Nat) (obj : CondObj)
    (h : timeoutTerminal w cid obj) :
    timeoutTerminal (durationElapse fuel w x).1 cid obj := by
  unfold durationElapse
  split
  · next hx =>
      have hne : x ≠ cid := by
        intro he
        subst he
        exact h.2.1 (by simpa using hx)
      dsimp only
      refine ifReportPair_pres fuel cid obj _ _ _ ?_
      refine foldl_onCondEvent_pres x true cid obj _ _ ?_
      refine notify_pres _ x cid obj ?_
      split
      · refine ⟨?_, ?_, ?_⟩
        · rw [alookup_aset_ne _ _ _ _ (Ne.symm hne)]
          exact h.1
        · intro hm
          exact h.2.1 ((mem_eraseId _ _ _).mp hm).1
        · intro hm
          exact h.2.2 ((mem_eraseId _ _ _).mp hm).1
      · refine ⟨h.1, ?_, ?_⟩
        · intro hm
          exact h.2.1 ((mem_eraseId _ _ _).mp hm).1
        · intro hm
          exact h.2.2 ((mem_eraseId _ _ _).mp hm).1
  · exact h

/-- **C6** (confirmed).  When a registered condition's timeout timer elapses,
the callback completes without error, stores `TIMEOUT`, cancels and removes
the duration timer (and the timeout timer itself), and sets the `timed_out`
event when one is attached; and `TIMEOUT` is terminal while the condition
stays registered: neither a `report_condition_event` pass (even one that
raises mid-way) nor any duration- or timeout-timer elapse changes the stored
state away from `TIMEOUT`. -/
theorem timeout_terminal_claim (w : World) (cid : Nat) (obj : CondObj)
    (st : ConditionState)
    (harm : w.tmoTimers.contains cid = true)
    (hreg : alookup w.conditions cid = some (obj, st)) :
    (timeoutElapse w cid).2 = none ∧
    timeoutTerminal (timeoutElapse w cid).1 cid obj ∧
    (cid ∈ w.toEventIds →
      alookup (timeoutElapse w cid).1.toCalls cid =
        some ((alookup w.toCalls cid).getD 0 + 1)) ∧
    (∀ w', timeoutTerminal w' cid obj →
      (∀ fuel ids, timeoutTerminal (reportConditionEvent fuel w' ids).1 cid obj) ∧
      (∀ fuel x, timeoutTerminal (durationElapse fuel w' x).1 cid obj) ∧
      (∀ x, timeoutTerminal (timeoutElapse w' x).1 cid obj)) := by
  refine ⟨?_, ?_, ?_, ?_⟩
  · unfold timeoutElapse
    rw [if_pos harm]
  · unfold timeoutElapse
    rw [if_pos harm]
    dsimp only
    refine notifyTimeout_pres _ cid cid obj ?_
    rw [hreg]
    refine ⟨?_, ?_, ?_⟩
    · rw [alookup_aset_self]
    · intro hm
      exact ((mem_eraseId _ _ _).mp hm).2 rfl
    · intro hm
      exact ((mem_eraseId _ _ _).mp hm).2 rfl
  · intro hmem
    unfold timeoutElapse
    rw [if_pos harm]
    dsimp only
    rw [hreg]
    unfold notifyTimeout
    split
    · next hc =>
        dsimp only
        rw [alookup_bumpCount_self]
    · next hc =>
        exact absurd (by simpa using hmem) hc
  · intro w' hw'
    exact ⟨fun fuel ids => report_pres fuel w' ids cid obj hw',
           fun fuel x => durationElapse_pres fuel w' x cid obj hw',
           fun x => timeoutElapse_pres w' x cid obj hw'⟩

/-- Witness for C6: a leaf installed false with `timeout = 9` whose timeout
elapses; the stored state is `TIMEOUT` and survives a subsequent
`report_condition_event` pass. -/
theorem timeout_terminal_claim_witness :
    ((addCondition { World.empty with leafVals := [(1, false)] }
        (CTree.node 1 CondKind.leaf none (some 9) []) true true).tmoTimers.contains 1
      = true) ∧
    (alookup (addCondition { World.empty with leafVals := [(1, false)] }
        (CTree.node 1 CondKind.leaf none (some 9) []) true true).conditions 1 =
      some (⟨CondKind.leaf, [], none, some 9⟩, ConditionState.OFF)) ∧
    timeoutTerminal
      (timeoutElapse (addCondition { World.empty with leafVals := [(1, false)] }
        (CTree.node 1 CondKind.leaf none (some 9) []) true true) 1).1
      1 ⟨CondKind.leaf, [], none, some 9⟩ ∧
    timeoutTerminal
      (reportConditionEvent 5
        (timeoutElapse (addCondition { World.empty with leafVals := [(1, false)] }
          (CTree.node 1 CondKind.leaf none (some 9) []) true true) 1).1 [1]).1
      1 ⟨CondKind.leaf, [], none, some 9⟩ :=
  have A := timeout_terminal_claim
    (addCondition { World.empty with leafVals := [(1, false)] }
      (CTree.node 1 CondKind.leaf none (some 9) []) true true)
    1 ⟨CondKind.leaf, [], none, some 9⟩ ConditionState.OFF (by decide) (by decide)
  ⟨by decide, by decide, A.2.1,
   (A.2.2.2 _ A.2.1).1 5 [1]⟩

end Cosmo
